import Mathlib

/-!
Verification of the document ingestion and retrieval pipeline of the repository
(file-processor.py and setup-vector-database.py).  The Python code is shallowly
embedded: strings are Lean strings (operated on through their character lists),
byte strings are lists of naturals below 256, machine 32-bit arithmetic is
natural-number arithmetic reduced modulo 4294967296, Python float values of the
form n / 2^32 are exact rationals, and fallible steps return Except values.
External collaborators (the embedding HTTP service, the filesystem, the wall
clock and the third-party extraction libraries) are supplied as oracle data in
an explicit environment, as the specification directs.
-/

/-! ## Python string primitives -/

/-- Python str.strip with no arguments: remove leading and trailing whitespace
characters (modelled for the ASCII whitespace handled by Char.isWhitespace). -/
def pyStrip (l : List Char) : List Char :=
  ((l.dropWhile Char.isWhitespace).reverse.dropWhile Char.isWhitespace).reverse

/-- String-level wrapper of pyStrip. -/
def pyStripString (s : String) : String :=
  String.mk (pyStrip s.data)

/-- Helper of pySplit: acc holds the characters of the word currently being
read, in reverse order. -/
def pySplitAux : List Char → List Char → List (List Char)
  | [], acc => if acc.isEmpty then [] else [acc.reverse]
  | c :: cs, acc =>
    if c.isWhitespace then
      if acc.isEmpty then pySplitAux cs [] else acc.reverse :: pySplitAux cs []
    else pySplitAux cs (c :: acc)

/-- Python str.split with no arguments: split on runs of whitespace, dropping
empty pieces. -/
def pySplit (l : List Char) : List (List Char) :=
  pySplitAux l []

/-- Python " ".join over word lists. -/
def joinWords : List (List Char) → List Char
  | [] => []
  | [w] => w
  | w :: ws => w ++ ' ' :: joinWords ws

/-- Boolean list-level test: the first argument occurs at the start of the
second. -/
def startsWithChars : List Char → List Char → Bool
  | [], _ => true
  | _ :: _, [] => false
  | a :: as, b :: bs => a == b && startsWithChars as bs

/-- Boolean contiguous-substring test on character lists, modelling the Python
`in` operator on strings. -/
def containsChars (needle : List Char) : List Char → Bool
  | [] => startsWithChars needle []
  | c :: rest => startsWithChars needle (c :: rest) || containsChars needle rest

/-- Python `needle in hay` on strings. -/
def substrB (needle hay : String) : Bool :=
  containsChars needle.data hay.data

/-- Python str.lower, modelled for ASCII via Char.toLower. -/
def pyLower (s : String) : String :=
  String.mk (s.data.map Char.toLower)

/-- Decimal digit characters of a natural number, most significant first. -/
def natDigits (n : Nat) : List Char :=
  if h : n < 10 then [Char.ofNat (48 + n)]
  else natDigits (n / 10) ++ [Char.ofNat (48 + n % 10)]
  termination_by n
  decreasing_by exact Nat.div_lt_self (by omega) (by omega)

/-- Decimal rendering of a natural number. -/
def natStr (n : Nat) : String :=
  String.mk (natDigits n)

/-- Python repr of an integer. -/
def intStr (n : Int) : String :=
  if n < 0 then "-" ++ natStr (-n).toNat else natStr n.toNat

/-! ## Bytes, words, hex -/

/-- Big-endian integer of a byte list, modelling int.from_bytes(bs, "big"). -/
def beNat (bs : List Nat) : Nat :=
  bs.foldl (fun acc b => acc * 256 + b) 0

/-- Little-endian 32-bit word of (up to) four bytes. -/
def leWord (bs : List Nat) : Nat :=
  bs.getD 0 0 + 256 * bs.getD 1 0 + 65536 * bs.getD 2 0 + 16777216 * bs.getD 3 0

/-- Four little-endian bytes of a 32-bit word. -/
def wordLE (w : Nat) : List Nat :=
  [w % 256, w / 256 % 256, w / 65536 % 256, w / 16777216 % 256]

/-- Four big-endian bytes of a 32-bit word. -/
def wordBE (w : Nat) : List Nat :=
  [w / 16777216 % 256, w / 65536 % 256, w / 256 % 256, w % 256]

/-- Eight little-endian bytes of a 64-bit value. -/
def lenBytesLE (n : Nat) : List Nat :=
  [n % 256, n / 256 % 256, n / 65536 % 256, n / 16777216 % 256,
   n / 4294967296 % 256, n / 1099511627776 % 256,
   n / 281474976710656 % 256, n / 72057594037927936 % 256]

/-- Eight big-endian bytes of a 64-bit value. -/
def lenBytesBE (n : Nat) : List Nat :=
  (lenBytesLE n).reverse

/-- UTF-8 bytes of one character, modelling Python str.encode(). -/
def utf8Char (c : Char) : List Nat :=
  let n := c.toNat
  if n < 128 then [n]
  else if n < 2048 then [192 + n / 64, 128 + n % 64]
  else if n < 65536 then [224 + n / 4096, 128 + n / 64 % 64, 128 + n % 64]
  else [240 + n / 262144, 128 + n / 4096 % 64, 128 + n / 64 % 64, 128 + n % 64]

/-- UTF-8 bytes of a string, modelling Python str.encode(). -/
def utf8Bytes (s : String) : List Nat :=
  (s.data.map utf8Char).flatten

/-- Lowercase hex character of a value below 16. -/
def hexChar (n : Nat) : Char :=
  "0123456789abcdef".data.getD n '0'

/-- Lowercase hex rendering of a byte list, modelling hashlib hexdigest. -/
def bytesToHex (bs : List Nat) : String :=
  String.mk ((bs.map (fun b => [hexChar (b / 16), hexChar (b % 16)])).flatten)

/-- Split a byte list into blocks of 64 bytes. -/
def chunks64 : List Nat → List (List Nat)
  | [] => []
  | a :: rest => ((a :: rest).take 64) :: chunks64 ((a :: rest).drop 64)
  termination_by l => l.length
  decreasing_by simp [List.length_drop]; omega

/-! ## MD5 (hashlib.md5), over natural-number bytes -/

/-- Left rotation of a 32-bit word. -/
def rotl32 (x n : Nat) : Nat :=
  (x * 2 ^ n + x / 2 ^ (32 - n)) % 4294967296

/-- Bitwise complement of a 32-bit word. -/
def not32 (x : Nat) : Nat :=
  x ^^^ 4294967295

/-- MD5 per-round shift amounts. -/
def md5S : List Nat :=
  [7, 12, 17, 22, 7, 12, 17, 22, 7, 12, 17, 22, 7, 12, 17, 22,
   5, 9, 14, 20, 5, 9, 14, 20, 5, 9, 14, 20, 5, 9, 14, 20,
   4, 11, 16, 23, 4, 11, 16, 23, 4, 11, 16, 23, 4, 11, 16, 23,
   6, 10, 15, 21, 6, 10, 15, 21, 6, 10, 15, 21, 6, 10, 15, 21]

/-- MD5 sine-derived constants. -/
def md5K : List Nat :=
  [3614090360, 3905402710, 606105819, 3250441966,
   4118548399, 1200080426, 2821735955, 4249261313,
   1770035416, 2336552879, 4294925233, 2304563134,
   1804603682, 4254626195, 2792965006, 1236535329,
   4129170786, 3225465664, 643717713, 3921069994,
   3593408605, 38016083, 3634488961, 3889429448,
   568446438, 3275163606, 4107603335, 1163531501,
   2850285829, 4243563512, 1735328473, 2368359562,
   4294588738, 2272392833, 1839030562, 4259657740,
   2763975236, 1272893353, 4139469664, 3200236656,
   681279174, 3936430074, 3572445317, 76029189,
   3654602809, 3873151461, 530742520, 3299628645,
   4096336452, 1126891415, 2878612391, 4237533241,
   1700485571, 2399980690, 4293915773, 2240044497,
   1873313359, 4264355552, 2734768916, 1309151649,
   4149444226, 3174756917, 718787259, 3951481745]

/-- One MD5 round step on the state (a, b, c, d). -/
def md5Step (M : Nat → Nat) (st : Nat × Nat × Nat × Nat) (i : Nat) :
    Nat × Nat × Nat × Nat :=
  let a := st.1
  let b := st.2.1
  let c := st.2.2.1
  let d := st.2.2.2
  let fg : Nat × Nat :=
    if i < 16 then ((b &&& c) ||| (not32 b &&& d), i)
    else if i < 32 then ((d &&& b) ||| (not32 d &&& c), (5 * i + 1) % 16)
    else if i < 48 then (b ^^^ c ^^^ d, (3 * i + 5) % 16)
    else (c ^^^ (b ||| not32 d), 7 * i % 16)
  let f := (fg.1 + a + md5K.getD i 0 + M fg.2) % 4294967296
  (d, (b + rotl32 f (md5S.getD i 0)) % 4294967296, b, c)

/-- Process one 64-byte block, updating the running MD5 state. -/
def md5Block (st : Nat × Nat × Nat × Nat) (block : List Nat) :
    Nat × Nat × Nat × Nat :=
  let M : Nat → Nat := fun j => leWord ((block.drop (4 * j)).take 4)
  let r := (List.range 64).foldl (md5Step M) st
  ((st.1 + r.1) % 4294967296, (st.2.1 + r.2.1) % 4294967296,
   (st.2.2.1 + r.2.2.1) % 4294967296, (st.2.2.2 + r.2.2.2) % 4294967296)

/-- MD5 padding: 0x80, zeros to 56 mod 64, then the bit length in 64-bit
little-endian form. -/
def md5Pad (msg : List Nat) : List Nat :=
  msg ++ [128] ++ List.replicate ((120 - (msg.length + 1) % 64) % 64) 0 ++
    lenBytesLE (8 * msg.length)

/-- Final MD5 state over a byte list. -/
def md5FinalState (msg : List Nat) : Nat × Nat × Nat × Nat :=
  (chunks64 (md5Pad msg)).foldl md5Block
    (1732584193, 4023233417, 2562383102, 271733878)

/-- Serialize an MD5 state as the 16 digest bytes. -/
def md5Out (st : Nat × Nat × Nat × Nat) : List Nat :=
  wordLE st.1 ++ wordLE st.2.1 ++ wordLE st.2.2.1 ++ wordLE st.2.2.2

/-- MD5 digest (16 bytes) of a byte list, modelling hashlib.md5(...).digest().
-/
def md5 (msg : List Nat) : List Nat :=
  md5Out (md5FinalState msg)

/-! ## SHA-256 (hashlib.sha256), over natural-number bytes -/

/-- Right rotation of a 32-bit word. -/
def rotr32 (x n : Nat) : Nat :=
  (x / 2 ^ n + x * 2 ^ (32 - n)) % 4294967296

/-- SHA-256 round constants. -/
def sha256K : List Nat :=
  [1116352408, 1899447441, 3049323471, 3921009573,
   961987163, 1508970993, 2453635748, 2870763221,
   3624381080, 310598401, 607225278, 1426881987,
   1925078388, 2162078206, 2614888103, 3248222580,
   3835390401, 4022224774, 264347078, 604807628,
   770255983, 1249150122, 1555081692, 1996064986,
   2554220882, 2821834349, 2952996808, 3210313671,
   3336571891, 3584528711, 113926993, 338241895,
   666307205, 773529912, 1294757372, 1396182291,
   1695183700, 1986661051, 2177026350, 2456956037,
   2730485921, 2820302411, 3259730800, 3345764771,
   3516065817, 3600352804, 4094571909, 275423344,
   430227734, 506948616, 659060556, 883997877,
   958139571, 1322822218, 1537002063, 1747873779,
   1955562222, 2024104815, 2227730452, 2361852424,
   2428436474, 2756734187, 3204031479, 3329325298]

/-- Message-schedule extension step: given the schedule so far (reversed is
avoided by using getD on the front), extend to 64 words. -/
def sha256Extend (w : List Nat) (fuel : Nat) : List Nat :=
  match fuel with
  | 0 => w
  | fuel + 1 =>
    let i := w.length
    let w15 := w.getD (i - 15) 0
    let w2 := w.getD (i - 2) 0
    let s0 := rotr32 w15 7 ^^^ rotr32 w15 18 ^^^ w15 / 8
    let s1 := rotr32 w2 17 ^^^ rotr32 w2 19 ^^^ w2 / 1024
    sha256Extend (w ++ [(w.getD (i - 16) 0 + s0 + w.getD (i - 7) 0 + s1) % 4294967296]) fuel

/-- One SHA-256 compression step on the 8-word state. -/
def sha256Step (w : List Nat) (st : List Nat) (i : Nat) : List Nat :=
  let a := st.getD 0 0
  let b := st.getD 1 0
  let c := st.getD 2 0
  let d := st.getD 3 0
  let e := st.getD 4 0
  let f := st.getD 5 0
  let g := st.getD 6 0
  let h := st.getD 7 0
  let S1 := rotr32 e 6 ^^^ rotr32 e 11 ^^^ rotr32 e 25
  let ch := (e &&& f) ^^^ (not32 e &&& g)
  let temp1 := (h + S1 + ch + sha256K.getD i 0 + w.getD i 0) % 4294967296
  let S0 := rotr32 a 2 ^^^ rotr32 a 13 ^^^ rotr32 a 22
  let maj := (a &&& b) ^^^ (a &&& c) ^^^ (b &&& c)
  let temp2 := (S0 + maj) % 4294967296
  [(temp1 + temp2) % 4294967296, a, b, c, (d + temp1) % 4294967296, e, f, g]

/-- Process one 64-byte block, updating the running SHA-256 state. -/
def sha256Block (st : List Nat) (block : List Nat) : List Nat :=
  let w0 := (List.range 16).map (fun j => beNat ((block.drop (4 * j)).take 4))
  let w := sha256Extend w0 48
  let r := (List.range 64).foldl (sha256Step w) st
  (List.range 8).map (fun j => (st.getD j 0 + r.getD j 0) % 4294967296)

/-- SHA-256 padding: 0x80, zeros to 56 mod 64, then the bit length in 64-bit
big-endian form. -/
def sha256Pad (msg : List Nat) : List Nat :=
  msg ++ [128] ++ List.replicate ((120 - (msg.length + 1) % 64) % 64) 0 ++
    lenBytesBE (8 * msg.length)

/-- SHA-256 digest (32 bytes) of a byte list. -/
def sha256 (msg : List Nat) : List Nat :=
  (((chunks64 (sha256Pad msg)).foldl sha256Block
    [1779033703, 3144134277, 1013904242, 2773480762,
     1359893119, 2600822924, 528734635, 1541459225]).map wordBE).flatten

/-- hashlib.sha256(s.encode()).hexdigest() for a string s. -/
def sha256HexOfString (s : String) : String :=
  bytesToHex (sha256 (utf8Bytes s))

/-! ## Vector database model (setup-vector-database.py) -/

/-- Metadata values stored in the dict-shaped metadata bags. -/
inductive MVal where
  | s (v : String)
  | n (v : Nat)
  | list (v : List String)
  | null
deriving DecidableEq, Repr

/-- Python dict lookup on an insertion-ordered pair list where later entries
override earlier ones (dict update semantics). -/
def dictLookup (m : List (String × MVal)) (k : String) : Option MVal :=
  (m.reverse.find? (fun kv => kv.1 == k)).map (fun kv => kv.2)

/-- DatabaseConfig dataclass; only the fields the core pipeline reads are
modelled (paths and URLs belong to external collaborators). -/
structure DatabaseConfig where
  chunk_size : Nat := 1000
  chunk_overlap : Nat := 200

/-- The collections created by EnhancedVectorDatabase.initialize_database. -/
def defaultCollections : List String :=
  ["educational_content", "lesson_plans", "student_work", "assessments",
   "parent_communications"]

/-- State and oracles of an EnhancedVectorDatabase: its configuration, the
names of the collections it holds, the external Ollama embedding endpoint
(an oracle returning either the embedding or a network, timeout or protocol
error) and the wall clock reading used for datetime.now().isoformat(). -/
structure VectorDb where
  config : DatabaseConfig
  collections : List String
  svc : String → Except String (List ℚ)
  now : String

/-- One persisted chunk record: the tuple handed to collection.add. -/
structure DocRecord where
  chunk_id : String
  embedding : List ℚ
  document : String
  metadata : List (String × MVal)
deriving DecidableEq, Repr

/-- Slice a digest into 4-byte groups, keep the full groups, and normalize
each big-endian value to the unit interval by dividing by 2^32.  Mirrors the
first loop of create_fallback_embedding. -/
def digestToFloats (bs : List Nat) : List ℚ :=
  ((List.range ((bs.length + 3) / 4)).map (fun i => (bs.drop (4 * i)).take 4)).filterMap
    (fun c => if c.length = 4 then some ((beNat c : ℚ) / 4294967296) else none)

/-- The pad-or-truncate loop of create_fallback_embedding:
while len(embedding) < dim, extend with embedding[:min(len, dim - len)].
The source loop does not terminate when the starting list is empty (its
callers always supply four values); the model leaves an empty list unchanged.
-/
def padEmbedding (e : List ℚ) (dim : Nat) : List ℚ :=
  if h : e.length < dim ∧ e ≠ [] then
    padEmbedding (e ++ e.take (min e.length (dim - e.length))) dim
  else e
  termination_by dim - e.length
  decreasing_by
    have h1 : 1 ≤ e.length := by
      rcases e with _ | ⟨a, t⟩
      · exact absurd rfl h.2
      · simp
    simp [List.length_take]
    omega

/-- EnhancedVectorDatabase.create_fallback_embedding: hash the text with MD5,
slice the digest into unit-interval floats, then pad cyclically or truncate to
the requested dimension (default 384). -/
def create_fallback_embedding (text : String) (dim : Nat := 384) : List ℚ :=
  (padEmbedding (digestToFloats (md5 (utf8Bytes text))) dim).take dim

/-- Modelled from the spec words of section 4.4, as the reference for the
refinement claim C3: slice a cryptographic digest of the text into 4-byte
big-endian integers, divide each by 2^32, cyclically repeat the resulting
values until the target length is reached, then truncate to exactly the
target dimension. -/
def fallbackSpec (text : String) (dim : Nat) : List ℚ :=
  let base := digestToFloats (md5 (utf8Bytes text))
  (List.range dim).map (fun j => base.getD (j % base.length) 0)

/-- Cyclic truncation of a list to n elements. -/
def cycTake (b : List ℚ) (n : Nat) : List ℚ :=
  (List.range n).map (fun j => b.getD (j % b.length) 0)

/-- Number of iterations of the Python loop
for i in range(0, n, step), that is the number of chunk windows. -/
def numWindows (n step : Nat) : Nat :=
  (n + step - 1) / step

/-- The word windows words[i : i + size] visited by chunk_text, for
i = 0, step, 2 * step, ... -/
def wordWindows (words : List (List Char)) (size step : Nat) :
    List (List (List Char)) :=
  (List.range (numWindows words.length step)).map
    (fun k => (words.drop (k * step)).take size)

/-- EnhancedVectorDatabase.chunk_text: split into words, walk windows of
chunk_size words advancing by chunk_size - chunk_overlap, join each window
with single spaces and keep the chunks that are nonempty after stripping.
The source reads chunk_size and chunk_overlap from the configuration; they are
explicit parameters here and the database method fixes them below. -/
def chunk_text (chunk_size chunk_overlap : Nat) (text : String) : List String :=
  let words := pySplit text.data
  (((wordWindows words chunk_size (chunk_size - chunk_overlap)).map joinWords).filter
    (fun c => !(pyStrip c).isEmpty)).map (fun l => String.mk l)

/-- EnhancedVectorDatabase.get_ollama_embedding: ask the external service;
on any failure (network, timeout, non-2xx, malformed body) fall back to the
deterministic hash-based embedding. -/
def get_ollama_embedding (db : VectorDb) (text : String) : List ℚ :=
  match db.svc text with
  | .ok v => v
  | .error _ => create_fallback_embedding text 384

/-- Errors raised inside the pipeline (Python exception payloads). -/
inductive PyError where
  | fileNotFound (path : String)
  | unsupportedFormat (suffix : String)
  | noContent
  | collectionNotFound (name : String)
  | libraryError (msg : String)
deriving DecidableEq, Repr

/-- str(e) of a pipeline error.  The source wraps the collection name in
single-quote characters; the quote characters are omitted here. -/
def pyErrorMsg : PyError → String
  | .fileNotFound p => "File not found: " ++ p
  | .unsupportedFormat s => "Unsupported file format: " ++ s
  | .noContent => "No text content extracted from file"
  | .collectionNotFound n => "Collection " ++ n ++ " not found"
  | .libraryError m => m

/-- The per-chunk records built by the loop of add_document. -/
def buildChunkRecords (db : VectorDb) (doc_id : String) (chunks : List String)
    (metadata : List (String × MVal)) : List DocRecord :=
  chunks.enum.map (fun p =>
    { chunk_id := doc_id ++ "_chunk_" ++ natStr p.1
      embedding := get_ollama_embedding db p.2
      document := p.2
      metadata := metadata ++
        [("document_id", MVal.s doc_id), ("chunk_index", MVal.n p.1),
         ("total_chunks", MVal.n chunks.length), ("added_at", MVal.s db.now)] })

/-- EnhancedVectorDatabase.add_document: look up the collection, derive the
document id from the SHA-256 of the first 100 characters plus the timestamp
(truncated to 16 hex characters), chunk, embed every chunk, and hand the batch
to the store.  Returns the document id and the persisted records, or the
error the source raises. -/
def add_document (db : VectorDb) (collection_name content : String)
    (metadata : List (String × MVal)) : Except PyError (String × List DocRecord) :=
  if db.collections.contains collection_name then
    let doc_id := (sha256HexOfString (content.take 100 ++ db.now)).take 16
    let chunks := chunk_text db.config.chunk_size db.config.chunk_overlap content
    .ok (doc_id, buildChunkRecords db doc_id chunks metadata)
  else .error (.collectionNotFound collection_name)

/-! ## JSON values and json.dumps (the stdlib collaborator of the JSON
extractor) -/

/-- JSON values as parsed by json.load.  Numbers are modelled as integers;
float rendering is outside the scope of the claims. -/
inductive JVal where
  | null
  | bool (b : Bool)
  | num (n : Int)
  | str (s : String)
  | arr (xs : List JVal)
  | obj (kvs : List (String × JVal))

/-- Escaping of one character inside a JSON string literal. -/
def jsonEscapeChar (c : Char) : List Char :=
  if c = '"' then ['\\', '"']
  else if c = '\\' then ['\\', '\\']
  else if c = '\n' then ['\\', 'n']
  else if c = '\t' then ['\\', 't']
  else if c = '\r' then ['\\', 'r']
  else [c]

/-- Escaping of a JSON string literal body (ensure_ascii=False keeps non-ASCII
characters as they are). -/
def jsonEscape (s : String) : String :=
  String.mk ((s.data.map jsonEscapeChar).flatten)

/-- Indentation of n spaces. -/
def spaces (n : Nat) : String :=
  String.mk (List.replicate n ' ')

/-- Join pre-rendered lines with ",\n". -/
def joinComma : List String → String
  | [] => ""
  | [x] => x
  | x :: xs => x ++ ",\n" ++ joinComma xs

mutual

/-- json.dumps(v, indent=2, ensure_ascii=False) at a given indentation
level. -/
def jrepr (ind : Nat) : JVal → String
  | .null => "null"
  | .bool true => "true"
  | .bool false => "false"
  | .num n => intStr n
  | .str s => "\"" ++ jsonEscape s ++ "\""
  | .arr [] => "[]"
  | .arr (x :: xs) =>
    "[\n" ++ joinComma (jreprList (ind + 2) (x :: xs)) ++ "\n" ++ spaces ind ++ "]"
  | .obj [] => "\x7b\x7d"
  | .obj (kv :: kvs) =>
    "\x7b\n" ++ joinComma (jreprObj (ind + 2) (kv :: kvs)) ++ "\n" ++ spaces ind ++ "\x7d"

/-- Rendered array items, each on its own indented line. -/
def jreprList (ind : Nat) : List JVal → List String
  | [] => []
  | v :: vs => (spaces ind ++ jrepr ind v) :: jreprList ind vs

/-- Rendered object entries, each on its own indented line. -/
def jreprObj (ind : Nat) : List (String × JVal) → List String
  | [] => []
  | (k, v) :: kvs =>
    (spaces ind ++ "\"" ++ jsonEscape k ++ "\": " ++ jrepr ind v) :: jreprObj ind kvs

end

/-- json.dumps(v, indent=2, ensure_ascii=False) as called by the JSON
extractor. -/
def json_dumps (v : JVal) : String :=
  jrepr 0 v

/-! ## File processor model (file-processor.py) -/

/-- AdvancedFileProcessor.SUPPORTED_FORMATS: the closed extension-to-label
enumeration. -/
def SUPPORTED_FORMATS : List (String × String) :=
  [(".pdf", "PDF Document"), (".docx", "Word Document"),
   (".doc", "Word Document (Legacy)"), (".txt", "Text File"),
   (".md", "Markdown File"), (".html", "HTML File"),
   (".csv", "CSV Data File"), (".json", "JSON Data File"),
   (".yaml", "YAML Configuration"), (".yml", "YAML Configuration")]

/-- Dict key membership. -/
def hasKey (m : List (String × String)) (k : String) : Bool :=
  m.any (fun kv => kv.1 == k)

/-- pathlib Path.name: the component after the last slash. -/
def pathName (p : String) : String :=
  String.mk ((p.data.reverse.takeWhile (fun c => !(c == '/'))).reverse)

/-- pathlib Path.suffix: "." plus the part of the name after its last dot,
empty when the name has no dot, starts with its only dot, or ends in a dot. -/
def pathSuffix (p : String) : String :=
  let name := (pathName p).data
  let tail := name.reverse.takeWhile (fun c => !(c == '.'))
  if 1 ≤ tail.length ∧ tail.length + 1 < name.length then
    String.mk ('.' :: tail.reverse)
  else ""

/-- One filesystem entry visible to the processor.  content is the decoded
text of the file (meaningful for plain-text and structured formats); jsonVal
is the outcome of json.load on the content (none when the library raises);
extractOther is the outcome of the third-party extraction libraries for the
binary and markup formats (PDF, Word, Markdown, HTML, CSV, YAML), which the
model treats as external collaborators; the remaining fields are the stat and
mimetypes oracles. -/
structure EnvFile where
  path : String
  isFile : Bool := true
  content : String := ""
  jsonVal : Option JVal := none
  extractOther : Except PyError String := .error (.libraryError "extraction library failure")
  size : Nat := 0
  created_at : String := ""
  modified_at : String := ""
  mime : Option String := none

/-- The filesystem as seen through Path.exists, Path.glob and open. -/
structure Env where
  entries : List EnvFile

/-- Path lookup, modelling Path.exists plus open on the same path. -/
def envLookup (env : Env) (path : String) : Option EnvFile :=
  env.entries.find? (fun f => f.path == path)

/-- AdvancedFileProcessor.get_file_info: the basic file information dict. -/
def get_file_info (f : EnvFile) : List (String × MVal) :=
  [("filename", MVal.s (pathName f.path)),
   ("file_extension", MVal.s (pyLower (pathSuffix f.path))),
   ("file_size", MVal.n f.size),
   ("created_at", MVal.s f.created_at),
   ("modified_at", MVal.s f.modified_at),
   ("file_hash", MVal.s (sha256HexOfString f.content)),
   ("mime_type", match f.mime with | some m => MVal.s m | none => MVal.null)]

/-- AdvancedFileProcessor.extract_text: dispatch on the lower-cased extension.
The plain-text extractor returns the stripped content; the JSON extractor
pretty-prints the parsed value or propagates the parse failure; the remaining
supported formats call external extraction libraries, modelled by the oracle
outcome recorded in the environment. -/
def extract_text (f : EnvFile) : Except PyError String :=
  let ext := pyLower (pathSuffix f.path)
  if ext == ".txt" then .ok (pyStripString f.content)
  else if ext == ".json" then
    match f.jsonVal with
    | some v => .ok (json_dumps v)
    | none => .error (.libraryError "json parse failure")
  else if hasKey SUPPORTED_FORMATS ext then f.extractOther
  else .error (.unsupportedFormat ext)

/-- AdvancedFileProcessor.detect_content_type: keyword-presence rules over the
lower-cased content and filename, first match wins, generic fallback. -/
def detect_content_type (content filename : String) : String :=
  let content_lower := pyLower content
  let filename_lower := pyLower filename
  if ["lesson plan", "objective", "activity", "assessment"].any
      (fun w => substrB w content_lower) then "lesson_plan"
  else if ["quiz", "test", "question", "answer", "multiple choice"].any
      (fun w => substrB w content_lower) then "assessment"
  else if ["assignment", "homework", "project", "student work"].any
      (fun w => substrB w content_lower) then "student_work"
  else if ["parent", "guardian", "communication", "progress report"].any
      (fun w => substrB w content_lower) then "parent_communication"
  else if ["curriculum", "standard", "guideline"].any
      (fun w => substrB w filename_lower) then "curriculum"
  else "educational_content"

/-- The ordered grade-level phrases scanned by
extract_educational_metadata. -/
def grade_patterns : List String :=
  ["kindergarten", "1st grade", "2nd grade", "3rd grade", "4th grade",
   "5th grade", "grade 1", "grade 2", "grade 3", "grade 4", "grade 5",
   "grade 6", "elementary", "middle school", "high school"]

/-- The ordered subject phrases scanned by extract_educational_metadata. -/
def subjectsList : List String :=
  ["mathematics", "math", "science", "biology", "chemistry", "physics",
   "english", "language arts", "reading", "writing", "history",
   "social studies", "geography", "art", "music", "physical education"]

/-- The topic keywords collected by extract_educational_metadata. -/
def topic_keywords : List String :=
  ["fractions", "multiplication", "division", "photosynthesis", "solar system",
   "grammar", "vocabulary", "civil war", "democracy", "ecosystem"]

/-- AdvancedFileProcessor.extract_educational_metadata: first matching grade
phrase, first matching subject, all matching topics; absent matches omit the
key entirely. -/
def extract_educational_metadata (content : String) (filename : String) :
    List (String × MVal) :=
  let content_lower := pyLower content
  (match grade_patterns.find? (fun p => substrB p content_lower) with
   | some p => [("grade_level", MVal.s p)]
   | none => []) ++
  (match subjectsList.find? (fun s => substrB s content_lower) with
   | some s => [("subject", MVal.s s)]
   | none => []) ++
  (let topics := topic_keywords.filter (fun k => substrB k content_lower)
   if topics.isEmpty then [] else [("topics", MVal.list topics)])

/-- ProcessingResult dataclass. -/
structure ProcessingResult where
  success : Bool
  file_path : String
  content : String
  metadata : List (String × MVal)
  document_id : Option String := none
  error : Option String := none
  chunks_created : Nat := 0
deriving DecidableEq, Repr

/-- The try-block body of AdvancedFileProcessor.process_file: validate,
extract, classify, merge metadata and persist, propagating every raised
error.  The move of the source file into the processed directory is an
external filesystem effect outside the returned data.  Note: filename is
Path.name, custom metadata entries are appended last so they win on key
conflicts, and when no collection is passed the classified category is used.
-/
def process_file_core (db : VectorDb) (env : Env) (file_path : String)
    (collection_name : Option String) (custom_metadata : List (String × MVal)) :
    Except PyError (ProcessingResult × List DocRecord) :=
  match envLookup env file_path with
  | none => .error (.fileNotFound file_path)
  | some f =>
    if hasKey SUPPORTED_FORMATS (pyLower (pathSuffix file_path)) then
      let file_info := get_file_info f
      match extract_text f with
      | .error e => .error e
      | .ok content =>
        if (pyStrip content.data).isEmpty then .error .noContent
        else
          let content_type := detect_content_type content (pathName file_path)
          let coll := collection_name.getD content_type
          let educational_metadata :=
            extract_educational_metadata content (pathName file_path)
          let metadata := file_info ++ educational_metadata ++
            [("content_type", MVal.s content_type),
             ("processed_at", MVal.s db.now),
             ("processor_version", MVal.s "1.0")] ++ custom_metadata
          match add_document db coll content metadata with
          | .error e => .error e
          | .ok pr =>
            .ok ({ success := true
                   file_path := file_path
                   content := content
                   metadata := metadata
                   document_id := some pr.1
                   chunks_created :=
                     (chunk_text db.config.chunk_size db.config.chunk_overlap
                       content).length }, pr.2)
    else .error (.unsupportedFormat (pathSuffix file_path))

/-- AdvancedFileProcessor.process_file: the catch-all boundary converting any
raised error into a failed ProcessingResult.  The second component is the list
of records persisted to the vector store by this call. -/
def process_file (db : VectorDb) (env : Env) (file_path : String)
    (collection_name : Option String := none)
    (custom_metadata : List (String × MVal) := []) :
    ProcessingResult × List DocRecord :=
  match process_file_core db env file_path collection_name custom_metadata with
  | .ok rd => rd
  | .error e =>
    ({ success := false
       file_path := file_path
       content := ""
       metadata := []
       error := some (pyErrorMsg e) }, [])

/-- The glob filter of process_directory with recursive=True: entries under
the directory. -/
def underDir (dir path : String) : Bool :=
  startsWithChars (dir.data ++ ['/']) path.data

/-- The per-entry condition of the process_directory loop: globbed, a regular
file and of a supported (lower-cased) extension. -/
def dirMatch (dir : String) (f : EnvFile) : Bool :=
  underDir dir f.path && f.isFile && hasKey SUPPORTED_FORMATS (pyLower (pathSuffix f.path))

/-- The loop of AdvancedFileProcessor.process_directory over the globbed
entries, appending each ProcessingResult and accumulating the persisted
records. -/
def process_dir_go (db : VectorDb) (env : Env) (dir : String) :
    List EnvFile → List ProcessingResult × List DocRecord
  | [] => ([], [])
  | f :: rest =>
    if dirMatch dir f then
      let rd := process_file db env f.path none []
      let rest_rd := process_dir_go db env dir rest
      (rd.1 :: rest_rd.1, rd.2 ++ rest_rd.2)
    else process_dir_go db env dir rest

/-- AdvancedFileProcessor.process_directory with recursive=True: process every
globbed regular file with a supported extension, aggregating all results. -/
def process_directory (db : VectorDb) (env : Env) (dir : String) :
    List ProcessingResult × List DocRecord :=
  process_dir_go db env dir env.entries

/-! ## Concrete scenario data used by the evaluation theorems and witnesses -/

/-- The plain-text lesson-plan content of the end-to-end scenario of the
specification (under 1000 words). -/
def lessonText : String :=
  "Lesson Plan: Introduction to Fractions\nGrade Level: 4th Grade\nSubject: Mathematics\nStudents will explore fractions with pizza cutouts."

/-- A database in its post-initialization state: default configuration, the
five collections created by initialize_database, an unreachable embedding
service and a fixed clock reading. -/
def demoDb : VectorDb :=
  { config := {}
    collections := defaultCollections
    svc := fun _ => .error "ConnectionError"
    now := "2025-01-31T12:00:00" }

/-- The uploaded lesson-plan file of the end-to-end scenario. -/
def lessonFile : EnvFile :=
  { path := "uploads/sample_lesson.txt"
    content := lessonText
    size := 134
    created_at := "2025-01-31T11:59:00"
    modified_at := "2025-01-31T11:59:30"
    mime := some "text/plain" }

/-- The filesystem of the end-to-end scenario. -/
def lessonEnv : Env :=
  { entries := [lessonFile] }

/-- A plain-text file whose content is a single space: nonempty content whose
extraction strips to the empty string. -/
def blankFile : EnvFile :=
  { path := "blank.txt", content := " " }

/-- Filesystem holding only blankFile. -/
def blankEnv : Env :=
  { entries := [blankFile] }

/-- A JSON file with nonempty content "xyz" that is not valid JSON, so
json.load raises and jsonVal is none. -/
def badJsonFile : EnvFile :=
  { path := "data.json", content := "xyz" }

/-- Filesystem holding only badJsonFile. -/
def badJsonEnv : Env :=
  { entries := [badJsonFile] }

/-- An empty plain-text file. -/
def emptyTxtFile : EnvFile :=
  { path := "empty.txt", content := "" }

/-- Filesystem holding only emptyTxtFile. -/
def emptyTxtEnv : Env :=
  { entries := [emptyTxtFile] }

/-- An existing file with the unsupported extension of the specification
scenario. -/
def exeFile : EnvFile :=
  { path := "virus.exe", content := "MZ" }

/-- Filesystem holding only exeFile. -/
def exeEnv : Env :=
  { entries := [exeFile] }

/-- A small plain-text file with non-whitespace content. -/
def hwFile : EnvFile :=
  { path := "up/hw.txt", content := "homework about ecosystems" }

/-- A directory with one supported regular file, one unsupported file, one
subdirectory and one file outside the globbed directory. -/
def dirEnv : Env :=
  { entries :=
      [hwFile,
       { path := "up/virus.exe", content := "MZ" },
       { path := "up/sub", isFile := false },
       { path := "elsewhere/x.txt", content := "hi" }] }

/-! ## Lemmas: words produced by pySplit -/

/-- Every word delivered by the split helper is nonempty and free of
whitespace, provided the running accumulator is. -/
theorem pySplitAux_words (l : List Char) :
    ∀ acc, (∀ c ∈ acc, c.isWhitespace = false) →
      ∀ w ∈ pySplitAux l acc, w ≠ [] ∧ ∀ c ∈ w, c.isWhitespace = false := by
  induction l with
  | nil =>
    intro acc hacc w hw
    by_cases ha : acc.isEmpty
    · simp [pySplitAux, ha] at hw
    · simp [pySplitAux, ha] at hw
      subst hw
      constructor
      · simp [List.isEmpty_iff] at ha
        simpa using ha
      · intro c hc
        exact hacc c (by simpa using hc)
  | cons c cs ih =>
    intro acc hacc w hw
    by_cases hws : c.isWhitespace
    · by_cases ha : acc.isEmpty
      · simp [pySplitAux, hws, ha] at hw
        exact ih [] (by simp) w hw
      · simp [pySplitAux, hws, ha] at hw
        rcases hw with hw | hw
        · subst hw
          refine ⟨?_, ?_⟩
          · simp [List.isEmpty_iff] at ha
            simpa using ha
          · intro d hd
            exact hacc d (by simpa using hd)
        · exact ih [] (by simp) w hw
    · simp [pySplitAux, hws] at hw
      refine ih (c :: acc) ?_ w hw
      intro d hd
      rcases List.mem_cons.mp hd with h | h
      · subst h
        simpa using hws
      · exact hacc d h

/-- Every word of pySplit is nonempty and contains no whitespace. -/
theorem pySplit_words {l : List Char} :
    ∀ w ∈ pySplit l, w ≠ [] ∧ ∀ c ∈ w, c.isWhitespace = false := by
  intro w hw
  exact pySplitAux_words l [] (by simp) w hw

/-! ## Lemmas: pyStrip -/

/-- A character that fails the predicate survives dropWhile. -/
theorem mem_dropWhile_of_not {p : Char → Bool} {c : Char} :
    ∀ {l : List Char}, c ∈ l → p c = false → c ∈ l.dropWhile p := by
  intro l
  induction l with
  | nil => intro h; simp at h
  | cons a t ih =>
    intro hc hp
    by_cases hpa : p a
    · rw [List.dropWhile_cons_of_pos hpa]
      rcases List.mem_cons.mp hc with h | h
      · subst h; simp [hpa] at hp
      · exact ih h hp
    · rw [List.dropWhile_cons_of_neg hpa]
      exact hc

/-- If dropWhile empties a list, every element satisfied the predicate. -/
theorem all_of_dropWhile_eq_nil {p : Char → Bool} :
    ∀ {l : List Char}, l.dropWhile p = [] → ∀ c ∈ l, p c = true := by
  intro l
  induction l with
  | nil => intro _ c hc; simp at hc
  | cons a t ih =>
    intro h c hc
    by_cases hpa : p a
    · rw [List.dropWhile_cons_of_pos hpa] at h
      rcases List.mem_cons.mp hc with hce | hce
      · subst hce; exact hpa
      · exact ih h c hce
    · rw [List.dropWhile_cons_of_neg hpa] at h
      simp at h

/-- A non-whitespace character survives a full strip. -/
theorem mem_pyStrip {l : List Char} {c : Char} (hc : c ∈ l)
    (hw : c.isWhitespace = false) : c ∈ pyStrip l := by
  unfold pyStrip
  have h1 : c ∈ l.dropWhile Char.isWhitespace := mem_dropWhile_of_not hc hw
  have h2 : c ∈ (l.dropWhile Char.isWhitespace).reverse := by simpa using h1
  have h3 := mem_dropWhile_of_not h2 hw
  simpa using h3

/-- A list containing a non-whitespace character does not strip to empty. -/
theorem pyStrip_ne_nil {l : List Char} {c : Char} (hc : c ∈ l)
    (hw : c.isWhitespace = false) : pyStrip l ≠ [] := by
  intro h
  have := mem_pyStrip hc hw
  rw [h] at this
  simp at this

/-! ## Lemmas: joinWords -/

/-- Every member word occurs contiguously inside the space-joined list. -/
theorem joinWords_decomp {w : List Char} :
    ∀ {ws : List (List Char)}, w ∈ ws →
      ∃ pre post, joinWords ws = pre ++ w ++ post := by
  intro ws
  induction ws with
  | nil => intro h; simp at h
  | cons a t ih =>
    intro hw
    rcases List.mem_cons.mp hw with h | h
    · subst h
      cases t with
      | nil => exact ⟨[], [], by simp [joinWords]⟩
      | cons b u => exact ⟨[], ' ' :: joinWords (b :: u), by simp [joinWords]⟩
    · rcases ih h with ⟨pre, post, hpp⟩
      cases t with
      | nil => simp at h
      | cons b u =>
        refine ⟨a ++ ' ' :: pre, post, ?_⟩
        simp [joinWords, hpp]

/-- The space-joined list of a window keeps each character of each word. -/
theorem mem_joinWords {c : Char} {w : List Char} {ws : List (List Char)}
    (hw : w ∈ ws) (hc : c ∈ w) : c ∈ joinWords ws := by
  rcases joinWords_decomp hw with ⟨pre, post, h⟩
  rw [h]
  simp [hc]

/-! ## Lemmas: the window arithmetic of chunk_text -/

/-- Every window index walked by the loop starts inside the word list. -/
theorem window_start_lt {n step k : Nat} (hstep : 0 < step)
    (hk : k < numWindows n step) : k * step < n := by
  unfold numWindows at hk
  have h1 : (k + 1) * step ≤ ((n + step - 1) / step) * step :=
    Nat.mul_le_mul_right step hk
  have h2 : ((n + step - 1) / step) * step ≤ n + step - 1 :=
    Nat.div_mul_le_self _ _
  have h3 : 1 ≤ (n + step - 1) / step := by omega
  have h4 : (k + 1) * step = k * step + step := by ring
  have h5 : step ≤ ((n + step - 1) / step) * step := by
    calc step = 1 * step := (Nat.one_mul step).symm
    _ ≤ ((n + step - 1) / step) * step := Nat.mul_le_mul_right step h3
  omega

/-- Every word index lies in the window whose start is the largest multiple
of the stride not exceeding it. -/
theorem div_lt_numWindows {n step j : Nat} (hstep : 0 < step) (hj : j < n) :
    j / step < numWindows n step := by
  unfold numWindows
  have hn : 1 ≤ n := by omega
  have he : n + step - 1 = (n - 1) + step := by omega
  rw [he, Nat.add_div_right _ hstep]
  have : j / step ≤ (n - 1) / step := Nat.div_le_div_right (by omega)
  omega

/-- An element of a list at an index inside a drop-take window belongs to the
window. -/
theorem mem_drop_take {l : List (List Char)} {a i size : Nat} (hai : a ≤ i)
    (hi : i < l.length) (his : i - a < size) :
    l.get ⟨i, hi⟩ ∈ (l.drop a).take size := by
  apply List.mem_iff_getElem?.mpr
  refine ⟨i - a, ?_⟩
  rw [List.getElem?_take_of_lt his, List.getElem?_drop]
  have : a + (i - a) = i := by omega
  rw [this]
  simp

/-- Coverage at the word level: every word of the list belongs to at least
one window. -/
theorem mem_wordWindows_of_mem {words : List (List Char)} {size step : Nat}
    (hstep : 0 < step) (hss : step ≤ size) {w : List Char} (hw : w ∈ words) :
    ∃ win ∈ wordWindows words size step, w ∈ win := by
  rcases List.mem_iff_getElem.mp hw with ⟨j, hj, hje⟩
  have hkn : j / step < numWindows words.length step := div_lt_numWindows hstep hj
  refine ⟨(words.drop (j / step * step)).take size, ?_, ?_⟩
  · unfold wordWindows
    exact List.mem_map.mpr ⟨j / step, List.mem_range.mpr hkn, rfl⟩
  · have hdm := Nat.div_add_mod j step
    have hmlt := Nat.mod_lt j hstep
    have hcomm : j / step * step = step * (j / step) := Nat.mul_comm _ _
    have hai : j / step * step ≤ j := by omega
    have his : j - j / step * step < size := by omega
    have := mem_drop_take hai hj his
    rw [show words.get ⟨j, hj⟩ = words[j] from rfl, hje] at this
    exact this

/-- Every member of a window is a word of the underlying list. -/
theorem mem_words_of_mem_wordWindows {words : List (List Char)}
    {size step : Nat} {win : List (List Char)}
    (hwin : win ∈ wordWindows words size step) : ∀ w ∈ win, w ∈ words := by
  unfold wordWindows at hwin
  rcases List.mem_map.mp hwin with ⟨k, _, hke⟩
  intro w hw
  rw [← hke] at hw
  exact List.mem_of_mem_drop (List.mem_of_mem_take hw)

/-- With a positive stride and window size, every produced window is
nonempty. -/
theorem wordWindows_ne_nil {words : List (List Char)} {size step : Nat}
    (hstep : 0 < step) (hsize : 0 < size) {win : List (List Char)}
    (hwin : win ∈ wordWindows words size step) : win ≠ [] := by
  unfold wordWindows at hwin
  rcases List.mem_map.mp hwin with ⟨k, hk, hke⟩
  have hlt : k * step < words.length :=
    window_start_lt hstep (List.mem_range.mp hk)
  rw [← hke]
  have hlen : ((words.drop (k * step)).take size).length =
      min size (words.length - k * step) := by
    simp [List.length_take, List.length_drop]
  intro hnil
  rw [hnil] at hlen
  simp at hlen
  omega

/-- Every chunk string assembled from a window survives the strip filter. -/
theorem window_chunk_keeps {text : String} {size step : Nat}
    (hstep : 0 < step) (hsize : 0 < size) {win : List (List Char)}
    (hwin : win ∈ wordWindows (pySplit text.data) size step) :
    (pyStrip (joinWords win)).isEmpty = false := by
  have hne := wordWindows_ne_nil hstep hsize hwin
  rcases win with _ | ⟨w0, rest⟩
  · exact absurd rfl hne
  have hw0 : w0 ∈ pySplit text.data :=
    mem_words_of_mem_wordWindows hwin w0 (List.mem_cons_self _ _)
  rcases pySplit_words w0 hw0 with ⟨hw0ne, hw0ws⟩
  rcases w0 with _ | ⟨c0, w0t⟩
  · exact absurd rfl hw0ne
  have hstrip : pyStrip (joinWords ((c0 :: w0t) :: rest)) ≠ [] := by
    refine pyStrip_ne_nil ?_ (hw0ws c0 (List.mem_cons_self _ _))
    exact mem_joinWords (List.mem_cons_self _ _) (List.mem_cons_self _ _)
  simpa [List.isEmpty_iff] using hstrip

/-- chunk_text with a sensible overlap keeps every window: the strip filter
removes nothing, so the output is exactly the ordered window joins. -/
theorem chunk_text_windows (size overlap : Nat) (text : String)
    (hso : overlap < size) :
    chunk_text size overlap text =
      ((wordWindows (pySplit text.data) size (size - overlap)).map joinWords).map
        (fun l => String.mk l) := by
  have hstep : 0 < size - overlap := by omega
  have hsize : 0 < size := by omega
  have hfix : ((wordWindows (pySplit text.data) size (size - overlap)).map
      joinWords).filter (fun c => !(pyStrip c).isEmpty) =
      (wordWindows (pySplit text.data) size (size - overlap)).map joinWords := by
    apply List.filter_eq_self.mpr
    intro c hc
    rcases List.mem_map.mp hc with ⟨win, hwin, hce⟩
    rw [← hce]
    simp [window_chunk_keeps hstep hsize hwin]
  simp only [chunk_text]
  rw [hfix]

/-! ## Lemmas: cyclic padding of the fallback embedding -/

/-- Length of a cyclic truncation. -/
theorem cycTake_length (b : List ℚ) (n : Nat) : (cycTake b n).length = n := by
  simp [cycTake]

/-- Entry of a cyclic truncation. -/
theorem cycTake_getD {b : List ℚ} {n j : Nat} (hj : j < n) :
    (cycTake b n).getD j 0 = b.getD (j % b.length) 0 := by
  unfold cycTake
  rw [List.getD_eq_getElem?_getD, List.getElem?_map]
  simp [List.getElem?_range hj]

/-- Truncating a cyclic truncation truncates the cycle. -/
theorem cycTake_take {b : List ℚ} {n m : Nat} (h : m ≤ n) :
    (cycTake b n).take m = cycTake b m := by
  unfold cycTake
  rw [← List.map_take, List.take_range, Nat.min_eq_left h]

/-- Every element of a cyclic truncation of a nonempty list belongs to the
list. -/
theorem mem_of_mem_cycTake {b : List ℚ} (hb : b ≠ []) {n : Nat} {q : ℚ}
    (hq : q ∈ cycTake b n) : q ∈ b := by
  unfold cycTake at hq
  rcases List.mem_map.mp hq with ⟨j, _, hje⟩
  have hlt : j % b.length < b.length :=
    Nat.mod_lt j (List.length_pos.mpr hb)
  rw [← hje, List.getD_eq_getElem?_getD, List.getElem?_eq_getElem hlt]
  simp

/-- Appending a within-cycle chunk of a cyclic truncation extends the
truncation, provided the current length is a whole number of cycles. -/
theorem cycTake_append {b : List ℚ} {n k : Nat} (hmod : n % b.length = 0)
    (hk : k ≤ n) :
    cycTake b n ++ (cycTake b n).take k = cycTake b (n + k) := by
  apply List.ext_getElem
  · simp [cycTake_length, List.length_take, cycTake_length]
    omega
  · intro i h1 h2
    rcases Nat.lt_or_ge i n with hin | hin
    · rw [List.getElem_append_left (by simp [cycTake_length]; omega)]
      unfold cycTake
      simp [List.getElem_range]
    · have hlen : (cycTake b n).length = n := cycTake_length b n
      rw [List.getElem_append_right (by omega)]
      have hi : i - (cycTake b n).length < ((cycTake b n).take k).length := by
        simp [List.length_take, hlen]
        simp [cycTake_length] at h2
        omega
      rw [List.getElem_take]
      unfold cycTake
      have hmo : (i - n) % b.length = i % b.length := by
        rcases Nat.eq_zero_or_pos b.length with hb0 | hbp
        · rw [hb0] at hmod
          simp at hmod
          simp [hb0, hmod]
        · have hd : b.length ∣ n := Nat.dvd_of_mod_eq_zero hmod
          rcases hd with ⟨c, hc⟩
          subst hc
          rw [Nat.sub_mul_mod (by omega)]
      simp [List.getElem_range, hlen, hmo]

/-- The pad-then-truncate loop of the fallback embedding produces exactly the
cyclic truncation, for any start list that is a whole number of cycles of the
base (or already long enough). -/
theorem padEmbedding_cyc (b : List ℚ) :
    ∀ fuel e dim, dim - e.length ≤ fuel → e ≠ [] →
      e = cycTake b e.length →
      (e.length % b.length = 0 ∨ dim ≤ e.length) →
      (padEmbedding e dim).take dim = cycTake b dim := by
  intro fuel
  induction fuel with
  | zero =>
    intro e dim hfuel hne hcyc _
    have hd : dim ≤ e.length := by omega
    rw [padEmbedding]
    rw [dif_neg (by omega)]
    rw [hcyc, cycTake_take hd]
  | succ fuel ih =>
    intro e dim hfuel hne hcyc hinv
    by_cases hguard : e.length < dim ∧ e ≠ []
    · rw [padEmbedding, dif_pos hguard]
      have hlen1 : 1 ≤ e.length := by
        rcases e with _ | ⟨a, t⟩
        · exact absurd rfl hne
        · simp
      have hmod : e.length % b.length = 0 := by
        rcases hinv with h | h
        · exact h
        · omega
      have hkle : min e.length (dim - e.length) ≤ e.length := Nat.min_le_left _ _
      have hk1 : 1 ≤ min e.length (dim - e.length) := by
        have := hguard.1
        omega
      have happ : e ++ e.take (min e.length (dim - e.length)) =
          cycTake b (e.length + min e.length (dim - e.length)) := by
        rw [hcyc]
        rw [show (cycTake b e.length).length = e.length from by rw [← hcyc]]
        exact cycTake_append hmod hkle
      have hlen2 : (e ++ e.take (min e.length (dim - e.length))).length =
          e.length + min e.length (dim - e.length) := by
        simp [List.length_take]
      refine ih (e ++ e.take (min e.length (dim - e.length))) dim ?_ ?_ ?_ ?_
      · rw [hlen2]; omega
      · rcases e with _ | ⟨a, t⟩
        · exact absurd rfl hne
        · simp
      · rw [happ, cycTake_length]
      · rw [hlen2]
        rcases Nat.lt_or_ge (dim - e.length) e.length with hc | hc
        · right
          have hkv : min e.length (dim - e.length) = dim - e.length :=
            Nat.min_eq_right (by omega)
          rw [hkv]
          have := hguard.1
          omega
        · left
          have hkv : min e.length (dim - e.length) = e.length :=
            Nat.min_eq_left (by omega)
          rw [hkv, Nat.add_mod, hmod]
          simp
    · rw [padEmbedding, dif_neg hguard]
      have hd : dim ≤ e.length := by
        rcases Decidable.not_and_iff_or_not.mp hguard with h | h
        · omega
        · exact absurd hne h
      rw [hcyc, cycTake_take hd]

/-! ## Lemmas: shape and bounds of the digest-derived base values -/

set_option maxRecDepth 8000 in
/-- Slicing an explicit 16-byte digest yields exactly four normalized
values. -/
theorem digestToFloats_sixteen (b0 b1 b2 b3 b4 b5 b6 b7 b8 b9 b10 b11 b12 b13 b14 b15 : Nat) :
    digestToFloats [b0, b1, b2, b3, b4, b5, b6, b7, b8, b9, b10, b11, b12, b13, b14, b15] =
      [(beNat [b0, b1, b2, b3] : ℚ) / 4294967296,
       (beNat [b4, b5, b6, b7] : ℚ) / 4294967296,
       (beNat [b8, b9, b10, b11] : ℚ) / 4294967296,
       (beNat [b12, b13, b14, b15] : ℚ) / 4294967296] := by
  simp [digestToFloats, List.range_succ, beNat]

/-- A four-byte big-endian value normalized by 2^32 lies in the unit
interval. -/
theorem unit_of_four_bytes {b0 b1 b2 b3 : Nat} (h0 : b0 < 256) (h1 : b1 < 256)
    (h2 : b2 < 256) (h3 : b3 < 256) :
    0 ≤ (beNat [b0, b1, b2, b3] : ℚ) / 4294967296 ∧
      (beNat [b0, b1, b2, b3] : ℚ) / 4294967296 < 1 := by
  have hval : beNat [b0, b1, b2, b3] = ((b0 * 256 + b1) * 256 + b2) * 256 + b3 := by
    simp [beNat]
  have hlt : beNat [b0, b1, b2, b3] < 4294967296 := by
    rw [hval]
    omega
  constructor
  · exact div_nonneg (by exact_mod_cast Nat.zero_le _) (by norm_num)
  · rw [div_lt_one (by norm_num)]
    have : (beNat [b0, b1, b2, b3] : ℚ) < (4294967296 : Nat) := by
      exact_mod_cast hlt
    simpa using this

/-- The MD5-derived base of the fallback embedding: always exactly four
values, each in the unit interval. -/
theorem md5_base_shape (msg : List Nat) :
    ∃ x0 x1 x2 x3 : ℚ, digestToFloats (md5 msg) = [x0, x1, x2, x3] ∧
      ∀ q ∈ [x0, x1, x2, x3], 0 ≤ q ∧ q < 1 := by
  rcases hst : md5FinalState msg with ⟨a, b, c, d⟩
  have hmd : md5 msg = wordLE a ++ wordLE b ++ wordLE c ++ wordLE d := by
    rw [md5, hst, md5Out]
  rw [hmd]
  simp only [wordLE, List.cons_append, List.nil_append]
  rw [digestToFloats_sixteen]
  refine ⟨_, _, _, _, rfl, ?_⟩
  intro q hq
  have hb : ∀ x : Nat, x % 256 < 256 := fun x => Nat.mod_lt x (by omega)
  simp only [List.mem_cons, List.not_mem_nil, or_false] at hq
  rcases hq with h | h | h | h <;> subst h <;>
    exact unit_of_four_bytes (hb _) (hb _) (hb _) (hb _)

/-- Central description of the fallback embedding: it is exactly the cyclic
truncation of the four digest-derived unit-interval values. -/
theorem create_fallback_cyc (text : String) (dim : Nat) :
    ∃ x0 x1 x2 x3 : ℚ,
      digestToFloats (md5 (utf8Bytes text)) = [x0, x1, x2, x3] ∧
      create_fallback_embedding text dim = cycTake [x0, x1, x2, x3] dim ∧
      ∀ q ∈ [x0, x1, x2, x3], 0 ≤ q ∧ q < 1 := by
  obtain ⟨x0, x1, x2, x3, hbase, hbounds⟩ := md5_base_shape (utf8Bytes text)
  refine ⟨x0, x1, x2, x3, hbase, ?_, hbounds⟩
  unfold create_fallback_embedding
  rw [hbase]
  apply padEmbedding_cyc [x0, x1, x2, x3] dim [x0, x1, x2, x3] dim
  · simp
  · simp
  · rfl
  · left
    simp

/-! ## Lemmas: first characters of rendered JSON -/

/-- Decimal digit lists are nonempty and start with a digit character, which
is not whitespace. -/
theorem natDigits_head (n : Nat) :
    ∃ d t, natDigits n = d :: t ∧ d.isWhitespace = false := by
  induction n using Nat.strong_induction_on with
  | _ n ih =>
    rw [natDigits]
    by_cases h : n < 10
    · rw [dif_pos h]
      refine ⟨Char.ofNat (48 + n), [], rfl, ?_⟩
      interval_cases n <;> decide
    · rw [dif_neg h]
      obtain ⟨d, t, hdt, hd⟩ := ih (n / 10) (Nat.div_lt_self (by omega) (by omega))
      exact ⟨d, t ++ [Char.ofNat (48 + n % 10)], by rw [hdt]; rfl, hd⟩

/-- A string append keeps the head character of its left part. -/
theorem head_append {A : String} {c : Char} (h : ∃ t, A.data = c :: t)
    (B : String) : ∃ t, (A ++ B).data = c :: t := by
  obtain ⟨t, ht⟩ := h
  exact ⟨t ++ B.data, by rw [String.data_append, ht]; rfl⟩

/-- Every rendered JSON value starts with a non-whitespace character, at any
indentation level. -/
theorem jrepr_head (v : JVal) (ind : Nat) :
    ∃ c t, (jrepr ind v).data = c :: t ∧ c.isWhitespace = false := by
  cases v with
  | null => exact ⟨'n', ['u', 'l', 'l'], rfl, by decide⟩
  | bool b =>
    cases b with
    | true => exact ⟨'t', ['r', 'u', 'e'], rfl, by decide⟩
    | false => exact ⟨'f', ['a', 'l', 's', 'e'], rfl, by decide⟩
  | num n =>
    show ∃ c t, (intStr n).data = c :: t ∧ c.isWhitespace = false
    unfold intStr
    by_cases h : n < 0
    · rw [if_pos h]
      obtain ⟨t, ht⟩ := head_append (A := "-") ⟨[], rfl⟩ (natStr (-n).toNat)
      exact ⟨'-', t, ht, by decide⟩
    · rw [if_neg h]
      obtain ⟨d, t, hdt, hd⟩ := natDigits_head n.toNat
      exact ⟨d, t, by simp [natStr, hdt], hd⟩
  | str s =>
    show ∃ c t, ("\"" ++ jsonEscape s ++ "\"").data = c :: t ∧ c.isWhitespace = false
    obtain ⟨t, ht⟩ := head_append (head_append (A := "\"") ⟨[], rfl⟩ (jsonEscape s)) "\""
    exact ⟨'"', t, ht, by decide⟩
  | arr xs =>
    cases xs with
    | nil => exact ⟨'[', [']'], rfl, by decide⟩
    | cons x xt =>
      show ∃ c t, ("[\n" ++ joinComma (jreprList (ind + 2) (x :: xt)) ++ "\n" ++
        spaces ind ++ "]").data = c :: t ∧ c.isWhitespace = false
      obtain ⟨t, ht⟩ := head_append (head_append (head_append (head_append
        (A := "[\n") ⟨['\n'], rfl⟩ _) _) _) "]"
      exact ⟨'[', t, ht, by decide⟩
  | obj kvs =>
    cases kvs with
    | nil => exact ⟨'\x7b', ['\x7d'], rfl, by decide⟩
    | cons kv kt =>
      show ∃ c t, ("\x7b\n" ++ joinComma (jreprObj (ind + 2) (kv :: kt)) ++ "\n" ++
        spaces ind ++ "\x7d").data = c :: t ∧ c.isWhitespace = false
      obtain ⟨t, ht⟩ := head_append (head_append (head_append (head_append
        (A := "\x7b\n") ⟨['\n'], rfl⟩ _) _) _) "\x7d"
      exact ⟨'\x7b', t, ht, by decide⟩

/-- json.dumps output never strips to the empty string. -/
theorem json_dumps_strip_ne_nil (v : JVal) : pyStrip (json_dumps v).data ≠ [] := by
  obtain ⟨c, t, hct, hc⟩ := jrepr_head v 0
  unfold json_dumps
  apply pyStrip_ne_nil (c := c) _ hc
  rw [hct]
  exact List.mem_cons_self _ _

/-! ## Lemmas: structure of process_file results -/

/-- Whenever the try-block body completes, the result it builds is marked
successful, has no error, carries a document id and echoes the input path. -/
theorem process_file_core_ok {db : VectorDb} {env : Env} {path : String}
    {coll : Option String} {custom : List (String × MVal)}
    {rd : ProcessingResult × List DocRecord}
    (h : process_file_core db env path coll custom = .ok rd) :
    rd.1.success = true ∧ rd.1.error = none ∧ rd.1.document_id ≠ none ∧
      rd.1.file_path = path := by
  unfold process_file_core at h
  repeat' split at h
  all_goals try simp_all
  split at h
  all_goals try simp_all
  rw [← h]
  simp

/-- The failed branch of process_file always carries an error message and
persists nothing, and every result echoes the input path. -/
theorem process_file_shape (db : VectorDb) (env : Env) (path : String)
    (coll : Option String) (custom : List (String × MVal)) :
    ((process_file db env path coll custom).1.success = true ∧
       (process_file db env path coll custom).1.error = none ∧
       (process_file db env path coll custom).1.document_id ≠ none) ∨
    ((process_file db env path coll custom).1.success = false ∧
       (process_file db env path coll custom).1.error ≠ none ∧
       (process_file db env path coll custom).2 = []) := by
  unfold process_file
  rcases hcore : process_file_core db env path coll custom with e | rd
  · right
    simp
  · left
    obtain ⟨h1, h2, h3, _⟩ := process_file_core_ok hcore
    simp [h1, h2, h3]

/-- Every process_file result echoes the path it was asked to process. -/
theorem process_file_path (db : VectorDb) (env : Env) (path : String)
    (coll : Option String) (custom : List (String × MVal)) :
    (process_file db env path coll custom).1.file_path = path := by
  unfold process_file
  rcases hcore : process_file_core db env path coll custom with e | rd
  · simp
  · exact (process_file_core_ok hcore).2.2.2

/-- The directory loop returns exactly one result per matching entry, each
equal to an independent process_file call on that entry. -/
theorem process_dir_go_eq (db : VectorDb) (env : Env) (dir : String) :
    ∀ l : List EnvFile,
      (process_dir_go db env dir l).1 =
        (l.filter (dirMatch dir)).map (fun f => (process_file db env f.path none []).1) := by
  intro l
  induction l with
  | nil => simp [process_dir_go]
  | cons f rest ih =>
    by_cases hm : dirMatch dir f
    · simp [process_dir_go, hm, List.filter_cons, ih]
    · simp [process_dir_go, hm, List.filter_cons, ih]

/-! ## Claim theorems -/

/-- Claim C2: chunking coverage and order.  For every text whose
whitespace-delimited word sequence is nonempty and every overlap below the
chunk size, every word of the input occurs contiguously in at least one chunk
produced by chunk_text; the chunk sequence is exactly the left-to-right
sequence of space-joined windows words[k * stride : k * stride + size] for
k = 0, 1, 2, ...; and the number of chunks is numWindows of the word count,
chunk size and overlap alone. -/
theorem chunk_text_coverage (text : String) (size overlap : Nat)
    (hso : overlap < size) (hne : pySplit text.data ≠ []) :
    (∀ w ∈ pySplit text.data, ∃ c ∈ chunk_text size overlap text,
        ∃ pre post, c.data = pre ++ w ++ post)
  ∧ chunk_text size overlap text =
      (List.range (numWindows (pySplit text.data).length (size - overlap))).map
        (fun k => String.mk (joinWords
          (((pySplit text.data).drop (k * (size - overlap))).take size)))
  ∧ (chunk_text size overlap text).length =
      numWindows (pySplit text.data).length (size - overlap) := by
  have hstep : 0 < size - overlap := by omega
  have hb := chunk_text_windows size overlap text hso
  refine ⟨?_, ?_, ?_⟩
  · intro w hw
    obtain ⟨win, hwin, hmem⟩ :=
      @mem_wordWindows_of_mem (pySplit text.data) size (size - overlap) hstep
        (by omega) w hw
    obtain ⟨pre, post, hdecomp⟩ := joinWords_decomp hmem
    refine ⟨String.mk (joinWords win), ?_, pre, post, ?_⟩
    · rw [hb]
      exact List.mem_map.mpr ⟨joinWords win, List.mem_map.mpr ⟨win, hwin, rfl⟩, rfl⟩
    · simpa using hdecomp
  · rw [hb]
    unfold wordWindows
    rw [List.map_map, List.map_map]
    rfl
  · rw [hb]
    simp [wordWindows]

/-- Claim C3: fallback embedding construction.  For every text (the empty
string included) and every target dimension, create_fallback_embedding equals
the reference construction written from the specification (slice the MD5
digest into 4-byte big-endian integers, divide by 2^32, repeat cyclically
without re-hashing, truncate to the dimension), has exactly the target
length, and is deterministic: the model is a pure function of the text, so two
calls on the same text are bit-identical. -/
theorem create_fallback_embedding_spec (text : String) (dim : Nat) :
    create_fallback_embedding text dim = fallbackSpec text dim ∧
    (create_fallback_embedding text dim).length = dim ∧
    create_fallback_embedding text dim = create_fallback_embedding text dim := by
  obtain ⟨x0, x1, x2, x3, hbase, hcyc, _⟩ := create_fallback_cyc text dim
  refine ⟨?_, ?_, rfl⟩
  · rw [hcyc]
    simp only [fallbackSpec]
    rw [hbase]
    rfl
  · rw [hcyc, cycTake_length]

/-- Claim C9 (implicit): the fallback embedding is 4-periodic — entry j
equals entry j mod 4 for every j below the dimension — so the default
384-dimension vector holds at most 4 distinct values, each in [0, 1). -/
theorem create_fallback_embedding_periodic (text : String) (dim j : Nat)
    (hj : j < dim) :
    (create_fallback_embedding text dim).getD j 0 =
      (create_fallback_embedding text dim).getD (j % 4) 0 ∧
    (create_fallback_embedding text 384).toFinset.card ≤ 4 ∧
    ∀ v ∈ create_fallback_embedding text 384, 0 ≤ v ∧ v < 1 := by
  obtain ⟨x0, x1, x2, x3, hbase, hcyc, hbounds⟩ := create_fallback_cyc text dim
  obtain ⟨y0, y1, y2, y3, hbase2, hcyc2, hbounds2⟩ := create_fallback_cyc text 384
  refine ⟨?_, ?_, ?_⟩
  · have hj4 : j % 4 < dim := lt_of_le_of_lt (Nat.le_trans (Nat.mod_le j 4) (Nat.le_refl j)) hj
    rw [hcyc, cycTake_getD hj, cycTake_getD hj4]
    have hlen : ([x0, x1, x2, x3] : List ℚ).length = 4 := by simp
    rw [hlen]
    rw [Nat.mod_mod_of_dvd j (dvd_refl 4)]
  · rw [hcyc2]
    have hsub : (cycTake [y0, y1, y2, y3] 384).toFinset ⊆
        ([y0, y1, y2, y3] : List ℚ).toFinset := by
      intro q hq
      rw [List.mem_toFinset] at hq ⊢
      exact mem_of_mem_cycTake (by simp) hq
    calc (cycTake [y0, y1, y2, y3] 384).toFinset.card
        ≤ ([y0, y1, y2, y3] : List ℚ).toFinset.card := Finset.card_le_card hsub
      _ ≤ ([y0, y1, y2, y3] : List ℚ).length := List.toFinset_card_le _
      _ = 4 := by simp
  · intro v hv
    rw [hcyc2] at hv
    exact hbounds2 _ (mem_of_mem_cycTake (by simp) hv)

/-- Claim C5: embedding-service failure is recovered locally.  Whenever the
external request fails for any reason, get_ollama_embedding returns exactly
the deterministic fallback vector for that text; the function is total, so
the failure never surfaces to the caller. -/
theorem get_ollama_embedding_fallback (db : VectorDb) (text e : String)
    (h : db.svc text = .error e) :
    get_ollama_embedding db text = create_fallback_embedding text 384 := by
  unfold get_ollama_embedding
  rw [h]

/-- Claim C4: single-file ingestion never raises past its boundary — every
call returns a ProcessingResult that is either successful with a document id
and no error, or failed with an error description — and directory ingestion
returns exactly one result per matching file, each an independent
process_file call, so one failure never aborts the batch. -/
theorem process_file_total (db : VectorDb) (env : Env) (path : String)
    (coll : Option String) (custom : List (String × MVal)) (dir : String) :
    (((process_file db env path coll custom).1.success = true ∧
        (process_file db env path coll custom).1.error = none ∧
        (process_file db env path coll custom).1.document_id ≠ none) ∨
      ((process_file db env path coll custom).1.success = false ∧
        (process_file db env path coll custom).1.error ≠ none)) ∧
    (process_directory db env dir).1 =
      (env.entries.filter (dirMatch dir)).map
        (fun f => (process_file db env f.path none []).1) := by
  constructor
  · rcases process_file_shape db env path coll custom with h | h
    · exact Or.inl h
    · exact Or.inr ⟨h.1, h.2.1⟩
  · unfold process_directory
    exact process_dir_go_eq db env dir env.entries

/-- Claim C6: unsupported format rejection.  For every existing file whose
lower-cased extension is outside SUPPORTED_FORMATS, process_file fails with
the error message naming the unsupported extension and persists nothing to
the vector store. -/
theorem process_file_unsupported (db : VectorDb) (env : Env) (path : String)
    (f : EnvFile) (coll : Option String) (custom : List (String × MVal))
    (h1 : envLookup env path = some f)
    (h2 : hasKey SUPPORTED_FORMATS (pyLower (pathSuffix path)) = false) :
    (process_file db env path coll custom).1.success = false ∧
    (process_file db env path coll custom).1.error =
      some ("Unsupported file format: " ++ pathSuffix path) ∧
    (process_file db env path coll custom).2 = [] := by
  unfold process_file process_file_core
  rw [h1]
  simp [h2, pyErrorMsg]

/-- Claim C10 (implicit): process_directory silently skips files it does not
attempt — its results are exactly one independent process_file result per
globbed regular file with a supported lower-cased extension, and (with
distinct paths) an entry that is not a regular file or has an unsupported
extension contributes no result at all, not even a failed one. -/
theorem process_directory_skips (db : VectorDb) (env : Env) (dir : String) :
    ((process_directory db env dir).1 =
       (env.entries.filter (dirMatch dir)).map
         (fun f => (process_file db env f.path none []).1)) ∧
    ((env.entries.map (fun f => f.path)).Nodup →
      ∀ f ∈ env.entries, dirMatch dir f = false →
        ∀ r ∈ (process_directory db env dir).1, r.file_path ≠ f.path) := by
  have heq : (process_directory db env dir).1 =
      (env.entries.filter (dirMatch dir)).map
        (fun f => (process_file db env f.path none []).1) := by
    unfold process_directory
    exact process_dir_go_eq db env dir env.entries
  refine ⟨heq, ?_⟩
  intro hnodup f hf hmatch r hr
  rw [heq] at hr
  rcases List.mem_map.mp hr with ⟨f2, hf2, hre⟩
  have hf2e : f2 ∈ env.entries := List.mem_of_mem_filter hf2
  have hf2m : dirMatch dir f2 = true := List.of_mem_filter hf2
  intro hcontra
  rw [← hre, process_file_path] at hcontra
  have hfe : f2 = f := List.inj_on_of_nodup_map hnodup hf2e hf hcontra
  rw [hfe, hmatch] at hf2m
  simp at hf2m

/-- Claim C7: classification priority.  The rules are tested in the fixed
order lesson-plan, assessment, student-work, parent-communication, filename
curriculum, generic, and the first match wins over the lower-cased text and
filename; in particular any content containing "lesson plan" classifies as
lesson_plan, whatever else it contains — concretely for the text
"This lesson plan includes a quiz". -/
theorem detect_content_type_priority (content filename : String) :
    (["lesson plan", "objective", "activity", "assessment"].any
        (fun w => substrB w (pyLower content)) = true →
      detect_content_type content filename = "lesson_plan") ∧
    (["lesson plan", "objective", "activity", "assessment"].any
        (fun w => substrB w (pyLower content)) = false →
      ["quiz", "test", "question", "answer", "multiple choice"].any
        (fun w => substrB w (pyLower content)) = true →
      detect_content_type content filename = "assessment") ∧
    (["lesson plan", "objective", "activity", "assessment"].any
        (fun w => substrB w (pyLower content)) = false →
      ["quiz", "test", "question", "answer", "multiple choice"].any
        (fun w => substrB w (pyLower content)) = false →
      ["assignment", "homework", "project", "student work"].any
        (fun w => substrB w (pyLower content)) = true →
      detect_content_type content filename = "student_work") ∧
    (["lesson plan", "objective", "activity", "assessment"].any
        (fun w => substrB w (pyLower content)) = false →
      ["quiz", "test", "question", "answer", "multiple choice"].any
        (fun w => substrB w (pyLower content)) = false →
      ["assignment", "homework", "project", "student work"].any
        (fun w => substrB w (pyLower content)) = false →
      ["parent", "guardian", "communication", "progress report"].any
        (fun w => substrB w (pyLower content)) = true →
      detect_content_type content filename = "parent_communication") ∧
    (["lesson plan", "objective", "activity", "assessment"].any
        (fun w => substrB w (pyLower content)) = false →
      ["quiz", "test", "question", "answer", "multiple choice"].any
        (fun w => substrB w (pyLower content)) = false →
      ["assignment", "homework", "project", "student work"].any
        (fun w => substrB w (pyLower content)) = false →
      ["parent", "guardian", "communication", "progress report"].any
        (fun w => substrB w (pyLower content)) = false →
      ["curriculum", "standard", "guideline"].any
        (fun w => substrB w (pyLower filename)) = true →
      detect_content_type content filename = "curriculum") ∧
    (["lesson plan", "objective", "activity", "assessment"].any
        (fun w => substrB w (pyLower content)) = false →
      ["quiz", "test", "question", "answer", "multiple choice"].any
        (fun w => substrB w (pyLower content)) = false →
      ["assignment", "homework", "project", "student work"].any
        (fun w => substrB w (pyLower content)) = false →
      ["parent", "guardian", "communication", "progress report"].any
        (fun w => substrB w (pyLower content)) = false →
      ["curriculum", "standard", "guideline"].any
        (fun w => substrB w (pyLower filename)) = false →
      detect_content_type content filename = "educational_content") ∧
    detect_content_type "This lesson plan includes a quiz" filename = "lesson_plan" := by
  refine ⟨?_, ?_, ?_, ?_, ?_, ?_, ?_⟩
  · intro h1
    simp [detect_content_type, h1]
  · intro h1 h2
    simp [detect_content_type, h1, h2]
  · intro h1 h2 h3
    simp [detect_content_type, h1, h2, h3]
  · intro h1 h2 h3 h4
    simp [detect_content_type, h1, h2, h3, h4]
  · intro h1 h2 h3 h4 h5
    simp [detect_content_type, h1, h2, h3, h4, h5]
  · intro h1 h2 h3 h4 h5
    simp [detect_content_type, h1, h2, h3, h4, h5]
  · have hq : ["lesson plan", "objective", "activity", "assessment"].any
        (fun w => substrB w (pyLower "This lesson plan includes a quiz")) = true := by
      decide
    simp [detect_content_type, hq]

/-- Claim C8 (amended): empty extraction is a hard failure — for every
supported file whose extracted text strips to nothing (the empty plain-text
file included) process_file fails and persists nothing; and the extraction
round trip: a plain-text file whose content has a non-whitespace character,
or a JSON file whose content parses, extracts to text that passes the
non-emptiness check. -/
theorem extraction_empty_hard_failure (db : VectorDb) (env : Env)
    (path : String) (f : EnvFile) (coll : Option String)
    (custom : List (String × MVal)) (hf : envLookup env path = some f)
    (hsup : hasKey SUPPORTED_FORMATS (pyLower (pathSuffix path)) = true) :
    (∀ content, extract_text f = .ok content → pyStrip content.data = [] →
      (process_file db env path coll custom).1.success = false ∧
      (process_file db env path coll custom).2 = []) ∧
    (pyLower (pathSuffix f.path) = ".txt" →
      (∃ c ∈ f.content.data, c.isWhitespace = false) →
      ∃ content, extract_text f = .ok content ∧ pyStrip content.data ≠ []) ∧
    (pyLower (pathSuffix f.path) = ".json" → ∀ v, f.jsonVal = some v →
      ∃ content, extract_text f = .ok content ∧ pyStrip content.data ≠ []) := by
  refine ⟨?_, ?_, ?_⟩
  · intro content hext hstrip
    have h : process_file db env path coll custom =
        ({ success := false, file_path := path, content := "", metadata := [],
           error := some (pyErrorMsg PyError.noContent) }, []) := by
      unfold process_file process_file_core
      rw [hf]
      simp [hsup, hext, hstrip, pyErrorMsg]
    rw [h]
    exact ⟨rfl, rfl⟩
  · intro hext hc
    refine ⟨pyStripString f.content, ?_, ?_⟩
    · simp [extract_text, hext]
    · obtain ⟨c, hcm, hcw⟩ := hc
      have hmem : c ∈ pyStrip f.content.data := mem_pyStrip hcm hcw
      exact pyStrip_ne_nil (l := (pyStripString f.content).data) hmem hcw
  · intro hext v hv
    refine ⟨json_dumps v, ?_, json_dumps_strip_ne_nil v⟩
    simp [extract_text, hext, hv]

/-- Counterexample to claim C8 as stated: two supported files with nonempty
content for which extracting then checking non-emptiness fails — a plain-text
file holding a single space (extraction strips it to the empty string) and a
JSON file holding "xyz" (the JSON library raises on parse). -/
theorem extraction_nonempty_counterexample :
    (blankFile.content ≠ "" ∧ extract_text blankFile = .ok "" ∧
      (process_file demoDb blankEnv "blank.txt" none []).1.success = false ∧
      (process_file demoDb blankEnv "blank.txt" none []).2 = []) ∧
    (badJsonFile.content ≠ "" ∧ badJsonFile.jsonVal = none ∧
      extract_text badJsonFile = .error (.libraryError "json parse failure") ∧
      (process_file demoDb badJsonEnv "data.json" none []).1.success = false) := by
  refine ⟨⟨by decide, rfl, by decide, by decide⟩,
    ⟨by decide, rfl, rfl, by decide⟩⟩

/-- Claim C1 (evaluated at the failing input): the end-to-end scenario text
classifies as lesson_plan with the expected grade level, subject, topics and
a single chunk, but ingestion fails — the classified category lesson_plan is
used as the collection name while initialize_database only created the
plural-named collection lesson_plans, so add_document raises and process_file
returns a failed result, persisting nothing. -/
theorem end_to_end_lesson_plan_eval :
    detect_content_type lessonText "sample_lesson.txt" = "lesson_plan" ∧
    extract_educational_metadata lessonText "sample_lesson.txt" =
      [("grade_level", MVal.s "4th grade"), ("subject", MVal.s "mathematics"),
       ("topics", MVal.list ["fractions"])] ∧
    (chunk_text 1000 200 lessonText).length = 1 ∧
    defaultCollections.contains "lesson_plan" = false ∧
    defaultCollections.contains "lesson_plans" = true ∧
    (process_file demoDb lessonEnv "uploads/sample_lesson.txt" none []).1.success = false ∧
    (process_file demoDb lessonEnv "uploads/sample_lesson.txt" none []).1.error =
      some (pyErrorMsg (PyError.collectionNotFound "lesson_plan")) ∧
    (process_file demoDb lessonEnv "uploads/sample_lesson.txt" none []).2 = [] := by
  exact ⟨by decide, by decide, by decide, by decide, by decide, by decide,
    by decide, by decide⟩

/-! ## Witnesses -/

/-- Witness for chunking coverage on a concrete three-word text with
chunk size 2 and overlap 1. -/
theorem chunk_text_coverage_witness :
    (1 : Nat) < 2 ∧ pySplit "alpha beta gamma".data ≠ [] ∧
    (chunk_text 2 1 "alpha beta gamma").length =
      numWindows (pySplit "alpha beta gamma".data).length (2 - 1) :=
  ⟨by decide, by decide,
    (chunk_text_coverage "alpha beta gamma" 2 1 (by decide) (by decide)).2.2⟩

/-- Witness for the fallback-embedding periodicity at index 7 of a concrete
text. -/
theorem create_fallback_embedding_periodic_witness :
    (7 : Nat) < 384 ∧
    (create_fallback_embedding "abc" 384).getD 7 0 =
      (create_fallback_embedding "abc" 384).getD (7 % 4) 0 :=
  ⟨by decide, (create_fallback_embedding_periodic "abc" 384 7 (by decide)).1⟩

/-- Witness for the embedding-service fallback on a concrete database whose
service always fails. -/
theorem get_ollama_embedding_fallback_witness :
    demoDb.svc "hello" = .error "ConnectionError" ∧
    get_ollama_embedding demoDb "hello" = create_fallback_embedding "hello" 384 :=
  ⟨rfl, get_ollama_embedding_fallback demoDb "hello" "ConnectionError" rfl⟩

/-- Witness for unsupported-format rejection of virus.exe. -/
theorem process_file_unsupported_witness :
    envLookup exeEnv "virus.exe" = some exeFile ∧
    hasKey SUPPORTED_FORMATS (pyLower (pathSuffix "virus.exe")) = false ∧
    (process_file demoDb exeEnv "virus.exe" none []).1.success = false ∧
    (process_file demoDb exeEnv "virus.exe" none []).1.error =
      some ("Unsupported file format: " ++ pathSuffix "virus.exe") ∧
    (process_file demoDb exeEnv "virus.exe" none []).2 = [] :=
  ⟨rfl, by decide,
    (process_file_unsupported demoDb exeEnv "virus.exe" exeFile none [] rfl (by decide)).1,
    (process_file_unsupported demoDb exeEnv "virus.exe" exeFile none [] rfl (by decide)).2.1,
    (process_file_unsupported demoDb exeEnv "virus.exe" exeFile none [] rfl (by decide)).2.2⟩

/-- Witness for the silent skipping of unsupported directory entries on a
concrete four-entry directory. -/
theorem process_directory_skips_witness :
    (dirEnv.entries.map (fun f => f.path)).Nodup ∧
    dirMatch "up" { path := "up/virus.exe", content := "MZ" } = false ∧
    ∀ r ∈ (process_directory demoDb dirEnv "up").1, r.file_path ≠ "up/virus.exe" := by
  refine ⟨by decide, by decide, ?_⟩
  have hmem : ({ path := "up/virus.exe", content := "MZ" } : EnvFile) ∈ dirEnv.entries := by
    show _ ∈ [hwFile, { path := "up/virus.exe", content := "MZ" },
      { path := "up/sub", isFile := false }, { path := "elsewhere/x.txt", content := "hi" }]
    exact List.mem_cons_of_mem _ (List.mem_cons_self _ _)
  intro r hr
  exact (process_directory_skips demoDb dirEnv "up").2 (by decide) _ hmem (by decide) r hr

/-- Witness for the classification priority on concrete texts exercising the
first two rules. -/
theorem detect_content_type_priority_witness :
    detect_content_type "This lesson plan includes a quiz" "quiz.txt" = "lesson_plan" ∧
    detect_content_type "Take this quiz now" "quiz.txt" = "assessment" :=
  ⟨(detect_content_type_priority "This lesson plan includes a quiz" "quiz.txt").1 (by decide),
   (detect_content_type_priority "Take this quiz now" "quiz.txt").2.1 (by decide) (by decide)⟩

/-- Witness for the empty-extraction hard failure on a concrete empty
plain-text file. -/
theorem extraction_empty_hard_failure_witness :
    envLookup emptyTxtEnv "empty.txt" = some emptyTxtFile ∧
    (process_file demoDb emptyTxtEnv "empty.txt" none []).1.success = false ∧
    (process_file demoDb emptyTxtEnv "empty.txt" none []).2 = [] :=
  ⟨rfl, (extraction_empty_hard_failure demoDb emptyTxtEnv "empty.txt" emptyTxtFile
    none [] rfl (by decide)).1 "" rfl (by decide)⟩
